import Mathlib

/-!
Verification of the session-state lifecycle and promotion engine of the
`sim` repository (`src/main.py`, `src/sim_guide_agent/agent/state.py`,
`src/sim_guide_agent/callbacks/tool.py`, `src/sim_guide_agent/tools/reminders.py`).

The Python code is shallowly embedded: Python dicts become ordered
association lists (insertion-ordered, unique keys, in-place update keeps
the original position, exactly like CPython dicts), Python values become
the inductive `PyVal`, wall-clock reads (`time.time()`,
`datetime.now().timestamp()`) become explicit `now` parameters, and code
that can raise becomes `Except`-valued.  Free-text message fields of the
result dicts built by the tools are not modelled; the structured fields
(action/status/index and the state they write) are.
-/

namespace SimGuide

/-- Model of the Python runtime values the engine manipulates: ints,
floats (as rationals), strings, booleans, lists, dicts and
`google.adk.events.Event` objects (author, invocation id, state delta,
text content). -/
inductive PyVal where
  | vInt (n : Int)
  | vNum (q : Rat)
  | vStr (s : String)
  | vBool (b : Bool)
  | vList (items : List PyVal)
  | vDict (fields : List (String × PyVal))
  | vEvent (author : String) (invocationId : String) (delta : List (String × PyVal)) (content : String)

/-- A Python dict with string keys, in insertion order. -/
abbrev StateD := List (String × PyVal)

/-- Python exceptions that the embedded code can actually raise. -/
inductive PyErr where
  | zeroDivisionError
  | attributeError
  deriving DecidableEq

/-- Python `k in d` for a dict. -/
def dictContains : List (String × α) → String → Bool
  | [], _ => false
  | p :: rest, k => p.1 == k || dictContains rest k

/-- Python `d.get(k)` / `d[k]`: the value stored at `k`, if any. -/
def dictGet : List (String × α) → String → Option α
  | [], _ => none
  | p :: rest, k => if p.1 == k then some p.2 else dictGet rest k

/-- Python `d[k] = v`: update in place if the key exists (CPython keeps the
original insertion position), otherwise append at the end. -/
def dictSet : List (String × α) → String → α → List (String × α)
  | [], k, v => [(k, v)]
  | p :: rest, k, v => if p.1 == k then (k, v) :: rest else p :: dictSet rest k v

/-- The value the last write to `k` in the delta `d` left behind, if any. -/
def dictGetLast : List (String × α) → String → Option α
  | [], _ => none
  | p :: rest, k =>
    match dictGetLast rest k with
    | some v => some v
    | none => if p.1 == k then some p.2 else none

/-- Python `target.update(src)` on dicts, preserving CPython ordering. -/
def dictUpdate (target src : List (String × α)) : List (String × α) :=
  src.foldl (fun acc p => dictSet acc p.1 p.2) target

/-- The delta of an event (`event.actions.state_delta`); `[]` on non-events. -/
def eventDelta : PyVal → StateD
  | .vEvent _ _ d _ => d
  | _ => []

/-- The invocation id of an event; `""` on non-events. -/
def eventInvocationId : PyVal → String
  | .vEvent _ i _ _ => i
  | _ => ""

/-- Python `state.get(key, default)` read as an int (the stored values at
the keys the code reads this way are ints). -/
def stateGetIntD (st : StateD) (k : String) (d : Int) : Int :=
  match dictGet st k with
  | some (.vInt n) => n
  | _ => d

/-- Python `state.get(key, default)` read as a number (timestamps are
floats, modelled as rationals; stored ints coerce). -/
def stateGetNumD (st : StateD) (k : String) (d : Rat) : Rat :=
  match dictGet st k with
  | some (.vNum q) => q
  | some (.vInt n) => (n : Rat)
  | _ => d

/-- Python `state.get(key, [])` read as a list. -/
def stateGetListD (st : StateD) (k : String) : List PyVal :=
  match dictGet st k with
  | some (.vList l) => l
  | _ => []

/-- The stored value at `k` is an int or absent (the shapes the Python
code in fact stores there; on other shapes the Python comparisons would
raise `TypeError`, which is outside every claim). -/
def intLike (o : Option PyVal) : Prop :=
  o = none ∨ ∃ n, o = some (.vInt n)

/- ### String helpers mirroring the Python string primitives -/

/-- Python `str.lower()` (ASCII, as used by the code). -/
def pyLower (s : String) : String :=
  String.mk (s.data.map Char.toLower)

/-- Character-list substring test used to model Python `needle in haystack`. -/
def pyInAux (needle : List Char) : List Char → Bool
  | [] => needle.isEmpty
  | c :: cs => needle.isPrefixOf (c :: cs) || pyInAux needle cs

/-- Python `needle in haystack` on strings (substring containment). -/
def pyInStr (needle haystack : String) : Bool :=
  pyInAux needle.data haystack.data

/-- Digit run to a natural number (most significant first). -/
def digitsVal (cs : List Char) : Nat :=
  cs.foldl (fun a c => a * 10 + (c.toNat - 48)) 0

/-- Parse a nonempty all-digit run, as the body of Python `int(...)`. -/
def parseDigits (cs : List Char) : Option Nat :=
  match cs with
  | [] => none
  | _ => if cs.all Char.isDigit then some (digitsVal cs) else none

/-- Python `int(s)`: optional surrounding whitespace, optional sign, a
digit run; anything else raises `ValueError`, modelled as `none`.
(CPython additionally accepts digit-grouping underscores, which no claim
or call site exercises.) -/
def pyParseInt (s : String) : Option Int :=
  match ((s.data.dropWhile Char.isWhitespace).reverse.dropWhile Char.isWhitespace).reverse with
  | [] => none
  | c :: rest =>
    if c = '-' then (parseDigits rest).map (fun n => -(n : Int))
    else if c = '+' then (parseDigits rest).map (fun n => (n : Int))
    else (parseDigits (c :: rest)).map (fun n => (n : Int))

/-- Python `\w`: ASCII word character. -/
def isWordChar (c : Char) : Bool :=
  c.isAlphanum || c == '_'

/-- Does the literal `w` start here, immediately followed by a word
boundary (end of string or a non-word character)?  This is the suffix
obligation of a regex `\bw\b` whose literal ends in a word character. -/
def wbMatchAt : List Char → List Char → Bool
  | [], [] => true
  | [], c :: _ => !(isWordChar c)
  | _ :: _, [] => false
  | w :: ws, c :: cs => w == c && wbMatchAt ws cs

/-- Scan of `re.search` for a word-boundary-delimited literal: `prev` is
the character before the current position (`none` at the start). -/
def wbSearchAux (w : List Char) (prev : Option Char) : List Char → Bool
  | [] =>
    (match prev with
     | none => true
     | some c => !(isWordChar c)) && wbMatchAt w []
  | c :: cs =>
    ((match prev with
      | none => true
      | some c0 => !(isWordChar c0)) && wbMatchAt w (c :: cs)) || wbSearchAux w (some c) cs

/-- Python `re.search(r"\bw\b", m) is not None` for a literal `w` that
starts and ends with word characters (every alternative used by the code
does). -/
def reSearchWord (w : String) (m : String) : Bool :=
  wbSearchAux w.data none m.data

/-- Python `re.search` over an alternation `\b(w1|w2|...)\b`. -/
def reSearchAny (ws : List String) (m : String) : Bool :=
  ws.any (fun w => reSearchWord w m)

/-- Token counter for Python `len(s.split())`: `inWord` records whether
the previous character was part of a token. -/
def wordCountAux : List Char → Bool → Nat
  | [], _ => 0
  | c :: cs, inWord =>
    if c.isWhitespace then wordCountAux cs false
    else (if inWord then 0 else 1) + wordCountAux cs true

/-- Python `len(s.split())`: number of maximal nonempty
whitespace-separated tokens. -/
def pyWordCount (s : String) : Nat :=
  wordCountAux s.data false

/- ### Configuration defaults (`sim_guide_agent/agent/config.py`) -/

/-- `DEFAULT_USER_PREFERENCES` from `agent/config.py`, in source order. -/
def DEFAULT_USER_PREFERENCES : StateD :=
  [("profile:name", .vStr ("Abdullah")),
   ("profile:timezone", .vStr ("UTC+2")),
   ("profile:theme_preference", .vStr ("system")),
   ("profile:notification_preference", .vBool true),
   ("profile:focus_areas", .vList [.vStr ("ai"), .vStr ("technology"), .vStr ("wealth_creation"), .vStr ("personal_growth")]),
   ("profile:reminders", .vList []),
   ("profile:language_preference", .vStr ("en")),
   ("profile:conversation_style", .vStr ("balanced"))]

/-- `DEFAULT_APP_STATE` from `agent/config.py`. -/
def DEFAULT_APP_STATE : StateD :=
  [("system:version", .vStr ("1.0.0")),
   ("system:last_updated", .vStr ("2023-04-30"))]

/- ### Migrations (`sim_guide_agent/agent/state.py`) -/

/-- `CURRENT_MIGRATION_VERSION` from `agent/state.py`. -/
def CURRENT_MIGRATION_VERSION : Int := 3

/-- The `new_v2_preferences` literal inside `get_migration_updates`. -/
def NEW_V2_PREFERENCES : StateD :=
  [("profile:language_preference", .vStr ("en")),
   ("profile:conversation_style", .vStr ("balanced"))]

/-- The `namespace_migrations` literal inside `get_migration_updates`
(old key, new key), in source order. -/
def NAMESPACE_MIGRATIONS : List (String × String) :=
  [("user:name", "profile:name"),
   ("user:timezone", "profile:timezone"),
   ("user:theme_preference", "profile:theme_preference"),
   ("user:notification_preference", "profile:notification_preference"),
   ("user:focus_areas", "profile:focus_areas"),
   ("user:reminders", "profile:reminders"),
   ("user:language_preference", "profile:language_preference"),
   ("user:conversation_style", "profile:conversation_style"),
   ("app:version", "system:version"),
   ("app:last_updated", "system:last_updated")]

/-- One `if key not in existing_state: updates[key] = value` loop over a
literal pair list, as in migration steps v1 and v2. -/
def addAbsent (existingState : StateD) (updates : StateD) (pairs : StateD) : StateD :=
  pairs.foldl (fun u p => if dictContains existingState p.1 then u else dictSet u p.1 p.2) updates

/-- The v3 namespace-rename loop: `if old_key in existing_state and
new_key not in existing_state: updates[new_key] = existing_state[old_key]`. -/
def renameAbsent (existingState : StateD) (updates : StateD) (pairs : List (String × String)) : StateD :=
  pairs.foldl
    (fun u pr =>
      match dictGet existingState pr.1 with
      | some v => if dictContains existingState pr.2 then u else dictSet u pr.2 v
      | none => u)
    updates

/-- `get_migration_updates(current_version, target_version, existing_state)`
from `agent/state.py` lines 15-69. -/
def get_migration_updates (currentVersion targetVersion : Int) (existingState : StateD) : StateD :=
  let updates : StateD := []
  let updates :=
    if currentVersion < 1 ∧ 1 ≤ targetVersion then addAbsent existingState updates DEFAULT_USER_PREFERENCES
    else updates
  let updates :=
    if currentVersion < 2 ∧ 2 ≤ targetVersion then addAbsent existingState updates NEW_V2_PREFERENCES
    else updates
  let updates :=
    if currentVersion < 3 ∧ 3 ≤ targetVersion then renameAbsent existingState updates NAMESPACE_MIGRATIONS
    else updates
  updates

/-- `initialize_session_state(session)` from `agent/state.py` lines 71-149,
over the session's projected state; `now` is `datetime.now().timestamp()`.
Returns the init event, or `none` when the delta is empty. -/
def initialize_session_state (state : StateD) (now : Rat) : Option PyVal :=
  let currentMigrationVersion := stateGetIntD state ("migration_version") 0
  let needsMigration := currentMigrationVersion < CURRENT_MIGRATION_VERSION
  let initialState : StateD := []
  let initialState :=
    if needsMigration then
      dictSet
        (dictUpdate initialState
          (get_migration_updates currentMigrationVersion CURRENT_MIGRATION_VERSION state))
        ("migration_version") (.vInt CURRENT_MIGRATION_VERSION)
    else initialState
  let initialState := addAbsent state initialState DEFAULT_USER_PREFERENCES
  let initialState := addAbsent state initialState DEFAULT_APP_STATE
  let initialState := dictSet initialState ("session_start_time") (.vNum now)
  let initialState := dictSet initialState ("is_new_session") (.vBool true)
  let initialState :=
    if dictContains state ("migration_version") then initialState
    else dictSet initialState ("migration_version") (.vInt CURRENT_MIGRATION_VERSION)
  if initialState.isEmpty then none
  else
    some (.vEvent ("system") ("session_initialization") initialState
      (if needsMigration then
        "Session migrated from v" ++ toString currentMigrationVersion ++ " to v" ++
          toString CURRENT_MIGRATION_VERSION ++ " with " ++ toString initialState.length ++
          " updates"
      else "Session initialized with default state"))

/-- `migrate_existing_session(session)` from `agent/state.py` lines
151-191, over the session's projected state.  Returns the migration
event, or `none` when the session is already at the current version. -/
def migrate_existing_session (state : StateD) : Option PyVal :=
  let currentVersion := stateGetIntD state ("migration_version") 0
  if currentVersion ≥ CURRENT_MIGRATION_VERSION then none
  else
    let migrationUpdates := get_migration_updates currentVersion CURRENT_MIGRATION_VERSION state
    let migrationUpdates :=
      if migrationUpdates.isEmpty then [(("migration_version" : String), PyVal.vInt CURRENT_MIGRATION_VERSION)]
      else dictSet migrationUpdates ("migration_version") (.vInt CURRENT_MIGRATION_VERSION)
    some (.vEvent ("system") ("session_migration") migrationUpdates
      ("Session migrated to v" ++ toString CURRENT_MIGRATION_VERSION))

/-- The ordered fold of a delta over a projected state (the session
store's last-write-wins projection of appended events, spec section 3). -/
def applyDelta (state delta : StateD) : StateD :=
  dictUpdate state delta

/-- The events appended by `find_or_create_session` (`main.py` lines
144-201) when the requested session id is found: the migration event if
`migrate_existing_session` produced one, nothing otherwise. -/
def find_or_create_existing_appends (state : StateD) : List PyVal :=
  match migrate_existing_session state with
  | some e => [e]
  | none => []

/- ### Pending-persistence queue (`callbacks/tool.py`, `main.py`) -/

/-- The reserved transient state key holding the queue. -/
def PENDING_KEY : String := "_pending_persistence_events"

/-- The entry dict queued by `after_tool_callback` (`callbacks/tool.py`
lines 89-95): `{"event": event, "tool_name": tool.name, "timestamp": now}`. -/
def mkPendingEntry (event : PyVal) (toolName : String) (ts : Rat) : PyVal :=
  .vDict [("event", event), ("tool_name", .vStr toolName), ("timestamp", .vNum ts)]

/-- The staging step of `after_tool_callback` (`callbacks/tool.py` lines
89-95): read the pending list (default `[]`), append the new entry, store
it back. -/
def stagePendingEntry (state : StateD) (event : PyVal) (toolName : String) (ts : Rat) : StateD :=
  let pendingEvents := stateGetListD state PENDING_KEY
  dictSet state PENDING_KEY (.vList (pendingEvents ++ [mkPendingEntry event toolName ts]))

/-- `event_data["event"]`; `none` models the `KeyError`/`TypeError` path
of a malformed entry (which escapes the per-entry handler, because that
handler's log line reads the not-yet-assigned `tool_name`). -/
def entryEvent : PyVal → Option PyVal
  | .vDict d => dictGet d ("event")
  | _ => none

/-- The per-entry loop of `process_pending_state_persistence` (`main.py`
lines 644-655).  `svc e` tells whether `session_service.append_event`
succeeds on `e`; a failed append is logged and skipped.  Returns the
events appended in order and whether the loop completed normally. -/
def flushLoop (svc : PyVal → Bool) : List PyVal → List PyVal × Bool
  | [] => ([], true)
  | entry :: rest =>
    match entryEvent entry with
    | some e =>
      let tl := flushLoop svc rest
      if svc e then (e :: tl.1, tl.2) else tl
    | none => ([], false)

/-- The cleanup event of `process_pending_state_persistence` (`main.py`
lines 664-669); `nowInt` is `int(time.time())`. -/
def mkCleanupEvent (nowInt : Int) (count : Nat) : PyVal :=
  .vEvent ("system") ("cleanup_pending_events_" ++ toString nowInt)
    [(PENDING_KEY, .vList [])]
    ("Processed " ++ toString count ++ " pending state persistence events")

/-- `process_pending_state_persistence` (`main.py` lines 623-676): flush
every queued entry to the store in FIFO order, reset the in-memory
pending list, then append one cleanup event whose delta empties the
pending-list key.  Returns the events appended to the store in order and
the updated in-memory state. -/
def process_pending_state_persistence (svc : PyVal → Bool) (nowInt : Int) (state : StateD) :
    List PyVal × StateD :=
  let pendingEvents := stateGetListD state PENDING_KEY
  if pendingEvents.isEmpty then ([], state)
  else
    let flushed := flushLoop svc pendingEvents
    if flushed.2 then
      let state' := dictSet state PENDING_KEY (.vList [])
      let cleanupEvent := mkCleanupEvent nowInt pendingEvents.length
      if svc cleanupEvent then (flushed.1 ++ [cleanupEvent], state')
      else (flushed.1, state')
    else (flushed.1, state)

/- ### Retention classifier (`main.py` lines 501-621) -/

/-- An ASCII apostrophe, kept out of string literals. -/
def apos : String := String.singleton (Char.ofNat 39)

/-- The eight `high_value_patterns` alternation literals. -/
def HIGH_VALUE_PATTERNS : List (List String) :=
  [["goal", "objective", "plan", "strategy", "roadmap", "milestone"],
   ["learn", "understand", "research", "study", "knowledge", "insight"],
   ["decide", "decision", "choice", "option", "consider", "evaluate"],
   ["project", "work", "task", "assignment", "deadline", "meeting"],
   ["improve", "develop", "skill", "growth", "progress", "achievement"],
   ["money", "income", "investment", "business", "opportunity", "revenue"],
   ["ai", "artificial intelligence", "technology", "tool", "automation", "software"],
   ["tomorrow", "next week", "next month", "schedule", "calendar", "appointment"]]

/-- The `question_indicators` list (plain substring checks, not
word-bounded). -/
def QUESTION_INDICATORS : List String :=
  ["?", "how", "what", "why", "when", "where", "which"]

/-- The three `personal_indicators` regexes, each expanded to its
alternation of literal phrases. -/
def PERSONAL_INDICATOR_PATTERNS : List (List String) :=
  [["i like", "i prefer", "i want", "i need", "i think", "i believe", "i feel", "i love"],
   ["my goal", "my plan", "my idea", "my preference", "my opinion"],
   ["i" ++ apos ++ "m working on", "i" ++ apos ++ "m planning",
    "i" ++ apos ++ "m considering", "i" ++ apos ++ "m interested in"]]

/-- The three `actionable_patterns` regexes. -/
def ACTIONABLE_PATTERNS : List (List String) :=
  [["remind", "remember", "note", "save", "store", "track"],
   ["will", "going to", "plan to", "intend to"],
   ["should", "need to", "have to", "must"]]

/-- The rule cascade of `_should_save_session_to_memory`, as a function of
the three metrics the code extracts from the session state and of the
latest message (`main.py` lines 526-621). -/
def shouldSaveCore (turnCount : Int) (reminders : List PyVal) (sessionDuration : Rat)
    (latestMessage : String) : Bool :=
  if turnCount ≥ 3 then true
  else if reminders.length > 0 then true
  else
    let messageLower := pyLower latestMessage
    let highValueScore := (HIGH_VALUE_PATTERNS.filter (fun ws => reSearchAny ws messageLower)).length
    if highValueScore ≥ 2 then true
    else
      let wordCount := pyWordCount latestMessage
      if wordCount ≥ 50 ∧ highValueScore ≥ 1 then true
      else
        let hasQuestions := QUESTION_INDICATORS.any (fun q => pyInStr q messageLower)
        if hasQuestions ∧ turnCount ≥ 2 ∧ wordCount ≥ 30 then true
        else
          let personalScore :=
            (PERSONAL_INDICATOR_PATTERNS.filter (fun ws => reSearchAny ws messageLower)).length
          if personalScore ≥ 1 ∧ wordCount ≥ 15 then true
          else if sessionDuration ≥ 300 ∧ turnCount ≥ 2 then true
          else
            let actionableScore :=
              (ACTIONABLE_PATTERNS.filter (fun ws => reSearchAny ws messageLower)).length
            if actionableScore ≥ 2 then true
            else false

/-- `_should_save_session_to_memory(session, latest_message)` (`main.py`
lines 501-621).  `now` is the value of `time.time()` at the moment of the
call: the session duration is `now` minus the stored
`session_start_time` (defaulting to `now` itself, hence duration 0). -/
def _should_save_session_to_memory (state : StateD) (latestMessage : String) (now : Rat) : Bool :=
  let turnCount := stateGetIntD state ("conversation_turn_count") 0
  let reminders := stateGetListD state ("user:reminders")
  let sessionDuration := now - stateGetNumD state ("session_start_time") now
  shouldSaveCore turnCount reminders sessionDuration latestMessage

/-- The lowered words of the positional lexicon actually implemented by
the reminder tools. -/
def CODE_LEXICON : List String := ["first", "last", "second", "third"]

/- ### Reminder reference resolution (`tools/reminders.py`) -/

/-- `reminder.get("text", reminder) if isinstance(reminder, dict) else
reminder`, followed by the `.lower()` call sites that require the result
to be a string: `none` models the `AttributeError` raised when the item
is neither a string nor a dict with a string `"text"` value. -/
def reminderText : PyVal → Option String
  | .vStr s => some s
  | .vDict d =>
    match dictGet d ("text") with
    | some (.vStr s) => some s
    | _ => none
  | _ => none

/-- The content-similarity loop shared verbatim by
`UpdateReminderTool.run` (lines 215-226) and `CompleteReminderTool.run`
(lines 330-341): walk the list keeping the first strictly-best
`len(reference)/len(text)` score.  `i` is the position of the head of
`rest` in the full list; raises `ZeroDivisionError` when a matched text
is empty and `AttributeError` on a non-text item. -/
def findByContentAux (ref : String) : List PyVal → Nat → Rat → Option Nat → Except PyErr (Option Nat)
  | [], _, _, idx => .ok idx
  | r :: rest, i, best, idx =>
    match reminderText r with
    | none => .error .attributeError
    | some t =>
      if pyInStr (pyLower ref) (pyLower t) then
        if t.length = 0 then .error .zeroDivisionError
        else
          let score : Rat := (ref.length : Rat) / (t.length : Rat)
          if score > best then findByContentAux ref rest (i + 1) score (some i)
          else findByContentAux ref rest (i + 1) best idx
      else findByContentAux ref rest (i + 1) best idx

/-- Entry point of the content-similarity fallback, with
`best_match_score = 0` and `index = None`. -/
def findByContent (reminders : List PyVal) (ref : String) : Except PyErr (Option Nat) :=
  findByContentAux ref reminders 0 0 none

/-- The reference-resolution step shared by `UpdateReminderTool.run`
(lines 196-234) and `CompleteReminderTool.run` (lines 311-349): try
`int(...)` (1-based, validated against the list bounds), then the
positional words `first`, `last`, `second` (if more than one item),
`third` (if more than two), then content similarity.  `.ok none` is the
"could not find" outcome. -/
def resolveReminderReference (reminders : List PyVal) (ref : String) : Except PyErr (Option Nat) :=
  match pyParseInt ref with
  | some n =>
    let index : Int := n - 1
    if index < 0 ∨ index ≥ (reminders.length : Int) then .ok none
    else .ok (some index.toNat)
  | none =>
    if pyLower ref = "first" then .ok (some 0)
    else if pyLower ref = "last" then .ok (some (reminders.length - 1))
    else if pyLower ref = "second" ∧ reminders.length > 1 then .ok (some 1)
    else if pyLower ref = "third" ∧ reminders.length > 2 then .ok (some 2)
    else findByContent reminders ref

/-- The structured outcome of a reminder tool run: the
`status = "error"` dict for an empty list, the `status = "error"` dict
for an unresolved reference, or the `status = "success"` dict carrying
the 1-based `matched_index`. -/
inductive RunOutcome where
  | emptyListError
  | notFoundError
  | success (matchedIndexOneBased : Nat)
  deriving DecidableEq

/-- `UpdateReminderTool.run(reminder_reference, updated_text, ...)`
(`tools/reminders.py` lines 165-267): resolve the reference, rewrite the
matched item's text (converting a legacy non-dict item to the structured
form with `created_at = nowT` and `date_added = dateStr`), and return the
structured outcome together with the new `user:reminders` list. -/
def updateReminderRun (reminders : List PyVal) (ref updatedText : String) (nowT : Rat)
    (dateStr : String) : Except PyErr (RunOutcome × List PyVal) :=
  if reminders.isEmpty then .ok (.emptyListError, reminders)
  else
    match resolveReminderReference reminders ref with
    | .error e => .error e
    | .ok none => .ok (.notFoundError, reminders)
    | .ok (some index) =>
      let oldReminder := reminders.getD index (.vStr (""))
      let newItem :=
        match oldReminder with
        | .vDict d => PyVal.vDict (dictSet d ("text") (.vStr updatedText))
        | _ =>
          PyVal.vDict
            [("text", .vStr updatedText), ("created_at", .vNum nowT),
             ("date_added", .vStr dateStr), ("completed", .vBool false)]
      .ok (.success (index + 1), reminders.set index newItem)

/-- `CompleteReminderTool.run(reminder_reference, ...)`
(`tools/reminders.py` lines 282-380): same resolution, then mark the
matched item completed (converting a legacy item to the structured form,
keeping its text). -/
def completeReminderRun (reminders : List PyVal) (ref : String) (nowT : Rat)
    (dateStr : String) : Except PyErr (RunOutcome × List PyVal) :=
  if reminders.isEmpty then .ok (.emptyListError, reminders)
  else
    match resolveReminderReference reminders ref with
    | .error e => .error e
    | .ok none => .ok (.notFoundError, reminders)
    | .ok (some index) =>
      let reminder := reminders.getD index (.vStr (""))
      let newItem :=
        match reminder with
        | .vDict d => PyVal.vDict (dictSet d ("completed") (.vBool true))
        | r =>
          PyVal.vDict
            [("text", r), ("created_at", .vNum nowT),
             ("date_added", .vStr dateStr), ("completed", .vBool true)]
      .ok (.success (index + 1), reminders.set index newItem)

/-- The score the content-similarity loop assigns to one item: defined
exactly when the lowered reference occurs in the item's lowered text and
the text is nonempty (the crash-free matched case). -/
def matchScore (ref : String) (r : PyVal) : Option Rat :=
  match reminderText r with
  | some t =>
    if pyInStr (pyLower ref) (pyLower t) ∧ t.length ≠ 0 then
      some ((ref.length : Rat) / (t.length : Rat))
    else none
  | none => none

/-- A reminder item the tools' own writers produce: a legacy plain
string, or a dict whose `"text"` field is a string. -/
def WellFormedItem (r : PyVal) : Prop :=
  (∃ s, r = .vStr s) ∨ (∃ d, r = .vDict d ∧ ∃ s, dictGet d ("text") = some (.vStr s))

/-- An item whose resolved text is the empty string. -/
def EmptyTextItem (r : PyVal) : Prop :=
  reminderText r = some ""

/- ### Concrete inputs used by witnesses and counterexamples -/

/-- The three-item reminder list from the spec's resolution examples. -/
def items3 : List PyVal :=
  [.vStr ("Call John"), .vStr ("Buy milk"), .vStr ("Finish report")]

/-- A five-item reminder list (every index of the spec's claimed lexicon
exists). -/
def items5 : List PyVal :=
  [.vStr ("Call John"), .vStr ("Buy milk"), .vStr ("Finish report"),
   .vStr ("Walk dog"), .vStr ("Pay bills")]

/-- A session state that already contains every default profile/system
key and is at the current migration version. -/
def fullDefaultsState : StateD :=
  DEFAULT_USER_PREFERENCES ++ DEFAULT_APP_STATE ++ [("migration_version", .vInt 3)]

/-- A session state with two conversation turns, no reminders, and a
session start time of 0. -/
def turnTwoState : StateD :=
  [("conversation_turn_count", .vInt 2), ("session_start_time", .vNum 0)]

/- ### Dictionary lemmas -/

theorem dictGet_dictSet_self (d : List (String × α)) (k : String) (v : α) :
    dictGet (dictSet d k v) k = some v := by
  induction d with
  | nil => simp [dictSet, dictGet]
  | cons p rest ih =>
    by_cases h : p.1 = k
    · simp [dictSet, dictGet, h]
    · simp [dictSet, dictGet, h, ih]

theorem dictGet_dictSet_ne (d : List (String × α)) (k k' : String) (v : α) (h : k' ≠ k) :
    dictGet (dictSet d k v) k' = dictGet d k' := by
  have hkk' : k ≠ k' := Ne.symm h
  induction d with
  | nil => simp [dictSet, dictGet, hkk']
  | cons p rest ih =>
    by_cases hp : p.1 = k
    · have hpk' : p.1 ≠ k' := by rw [hp]; exact hkk'
      simp [dictSet, dictGet, hp, hkk', hpk']
    · simp [dictSet, dictGet, hp, ih]

theorem dictContains_dictSet (d : List (String × α)) (k k' : String) (v : α) :
    dictContains (dictSet d k v) k' = true ↔ (dictContains d k' = true ∨ k' = k) := by
  induction d with
  | nil =>
    simp [dictSet, dictContains]
    exact eq_comm
  | cons p rest ih =>
    by_cases hp : p.1 = k
    · simp [dictSet, dictContains, hp]
      intro hh
      exact Or.inl hh.symm
    · simp [dictSet, dictContains, hp, ih]
      tauto

theorem dictSet_isEmpty (d : List (String × α)) (k : String) (v : α) :
    (dictSet d k v).isEmpty = false := by
  cases d with
  | nil => simp [dictSet]
  | cons p rest =>
    by_cases hp : p.1 = k <;> simp [dictSet, hp]

theorem dictSet_eq_append (d : List (String × α)) (k : String) (v : α)
    (h : dictContains d k = false) : dictSet d k v = d ++ [(k, v)] := by
  induction d with
  | nil => simp [dictSet]
  | cons p rest ih =>
    simp only [dictContains, Bool.or_eq_false_iff, beq_eq_false_iff_ne] at h
    simp [dictSet, h.1, ih h.2]

theorem dictGetLast_append_single (d : List (String × α)) (k : String) (v : α) :
    dictGetLast (d ++ [(k, v)]) k = some v := by
  induction d with
  | nil => simp [dictGetLast]
  | cons p rest ih => simp [dictGetLast, ih]

theorem dictGetLast_eq_none (d : List (String × α)) (k : String)
    (h : dictContains d k = false) : dictGetLast d k = none := by
  induction d with
  | nil => rfl
  | cons p rest ih =>
    simp only [dictContains, Bool.or_eq_false_iff, beq_eq_false_iff_ne] at h
    simp [dictGetLast, ih h.2, h.1]

theorem dictGet_append_left (d1 d2 : List (String × α)) (k : String)
    (h : dictContains d1 k = false) : dictGet (d1 ++ d2) k = dictGet d2 k := by
  induction d1 with
  | nil => rfl
  | cons p rest ih =>
    simp only [dictContains, Bool.or_eq_false_iff, beq_eq_false_iff_ne] at h
    simp [dictGet, h.1, ih h.2]

theorem dictGet_applyDelta (st d : StateD) (k : String) :
    dictGet (applyDelta st d) k =
      match dictGetLast d k with
      | some v => some v
      | none => dictGet st k := by
  induction d generalizing st with
  | nil => simp [applyDelta, dictUpdate, dictGetLast]
  | cons p rest ih =>
    have step : applyDelta st (p :: rest) = applyDelta (dictSet st p.1 p.2) rest := by
      simp [applyDelta, dictUpdate]
    rw [step, ih]
    cases hrest : dictGetLast rest k with
    | some w => simp [dictGetLast, hrest]
    | none =>
      by_cases hp : p.1 = k
      · subst hp
        simp [dictGetLast, hrest, dictGet_dictSet_self]
      · simp [dictGetLast, hrest, hp, dictGet_dictSet_ne st p.1 k p.2 (fun hh => hp hh.symm)]

/- ### Migration-delta invariants -/

theorem addAbsent_contains (st u pairs : StateD) (k : String)
    (h : dictContains (addAbsent st u pairs) k = true) :
    dictContains u k = true ∨ (k ∈ pairs.map Prod.fst ∧ dictContains st k = false) := by
  induction pairs generalizing u with
  | nil => exact Or.inl h
  | cons p ps ih =>
    have h' : dictContains
        (addAbsent st (if dictContains st p.1 then u else dictSet u p.1 p.2) ps) k = true := by
      simpa [addAbsent] using h
    rcases ih _ h' with hu | ⟨hmem, hst⟩
    · by_cases hc : dictContains st p.1 = true
      · rw [if_pos hc] at hu
        exact Or.inl hu
      · rw [if_neg hc] at hu
        rcases (dictContains_dictSet u p.1 k p.2).mp hu with hu' | rfl
        · exact Or.inl hu'
        · exact Or.inr ⟨by simp, by simpa using hc⟩
    · exact Or.inr ⟨by simp [hmem], hst⟩

theorem renameAbsent_contains (st u : StateD) (pairs : List (String × String)) (k : String)
    (h : dictContains (renameAbsent st u pairs) k = true) :
    dictContains u k = true ∨ (k ∈ pairs.map Prod.snd ∧ dictContains st k = false) := by
  induction pairs generalizing u with
  | nil => exact Or.inl h
  | cons pr ps ih =>
    have h' : dictContains
        (renameAbsent st
          (match dictGet st pr.1 with
           | some v => if dictContains st pr.2 then u else dictSet u pr.2 v
           | none => u) ps) k = true := by
      simpa [renameAbsent] using h
    rcases ih _ h' with hu | ⟨hmem, hst⟩
    · cases hg : dictGet st pr.1 with
      | none =>
        simp only [hg] at hu
        exact Or.inl hu
      | some v =>
        simp only [hg] at hu
        by_cases hc : dictContains st pr.2 = true
        · rw [if_pos hc] at hu
          exact Or.inl hu
        · rw [if_neg hc] at hu
          rcases (dictContains_dictSet u pr.2 k v).mp hu with hu' | rfl
          · exact Or.inl hu'
          · exact Or.inr ⟨by simp, by simpa using hc⟩
    · exact Or.inr ⟨by simp [hmem], hst⟩

/-- Every key a migration delta can contain is absent from the existing
state and drawn from the fixed migration key universe. -/
theorem get_migration_updates_contains (cv tv : Int) (st : StateD) (k : String)
    (h : dictContains (get_migration_updates cv tv st) k = true) :
    dictContains st k = false ∧
      (k ∈ DEFAULT_USER_PREFERENCES.map Prod.fst ∨ k ∈ NEW_V2_PREFERENCES.map Prod.fst ∨
        k ∈ NAMESPACE_MIGRATIONS.map Prod.snd) := by
  simp only [get_migration_updates] at h
  set u1 : StateD :=
    if cv < 1 ∧ 1 ≤ tv then addAbsent st [] DEFAULT_USER_PREFERENCES else [] with hu1
  set u2 : StateD :=
    if cv < 2 ∧ 2 ≤ tv then addAbsent st u1 NEW_V2_PREFERENCES else u1 with hu2
  have step1 : dictContains u1 k = true →
      dictContains st k = false ∧ k ∈ DEFAULT_USER_PREFERENCES.map Prod.fst := by
    intro hh
    rw [hu1] at hh
    split at hh
    · rcases addAbsent_contains st [] DEFAULT_USER_PREFERENCES k hh with hfalse | ⟨hm, hs⟩
      · simp [dictContains] at hfalse
      · exact ⟨hs, hm⟩
    · simp [dictContains] at hh
  have step2 : dictContains u2 k = true →
      dictContains st k = false ∧
        (k ∈ DEFAULT_USER_PREFERENCES.map Prod.fst ∨ k ∈ NEW_V2_PREFERENCES.map Prod.fst) := by
    intro hh
    rw [hu2] at hh
    split at hh
    · rcases addAbsent_contains st u1 NEW_V2_PREFERENCES k hh with hu | ⟨hm, hs⟩
      · rcases step1 hu with ⟨hs, hm⟩
        exact ⟨hs, Or.inl hm⟩
      · exact ⟨hs, Or.inr hm⟩
    · rcases step1 hh with ⟨hs, hm⟩
      exact ⟨hs, Or.inl hm⟩
  split at h
  · rcases renameAbsent_contains st u2 NAMESPACE_MIGRATIONS k h with hu | ⟨hm, hs⟩
    · rcases step2 hu with ⟨hs, hm⟩
      exact ⟨hs, by tauto⟩
    · exact ⟨hs, Or.inr (Or.inr hm)⟩
  · rcases step2 h with ⟨hs, hm⟩
    exact ⟨hs, by tauto⟩

/-- No migration delta ever contains the `migration_version` key itself. -/
theorem get_migration_updates_no_version (cv tv : Int) (st : StateD) :
    dictContains (get_migration_updates cv tv st) ("migration_version") = false := by
  cases hc : dictContains (get_migration_updates cv tv st) ("migration_version") with
  | false => rfl
  | true =>
    rcases get_migration_updates_contains cv tv st _ hc with ⟨_, hm⟩
    rcases hm with hm | hm | hm <;> revert hm <;> decide

/-- Shape of the event produced by `migrate_existing_session` on a
session below the current version: the version bump is present, is the
last write, and is the last key of the delta. -/
theorem migrate_some (st : StateD) (h : stateGetIntD st ("migration_version") 0 < 3) :
    ∃ d, migrate_existing_session st =
        some (.vEvent ("system") ("session_migration") d
          ("Session migrated to v" ++ toString CURRENT_MIGRATION_VERSION)) ∧
      dictGet d ("migration_version") = some (.vInt 3) ∧
      dictGetLast d ("migration_version") = some (.vInt 3) ∧
      (d.map Prod.fst).getLast? = some ("migration_version") := by
  have hn : ¬ (stateGetIntD st ("migration_version") 0 ≥ CURRENT_MIGRATION_VERSION) := by
    simp only [CURRENT_MIGRATION_VERSION]
    omega
  by_cases he :
      (get_migration_updates (stateGetIntD st ("migration_version") 0)
        CURRENT_MIGRATION_VERSION st).isEmpty = true
  · have he' : get_migration_updates (stateGetIntD st ("migration_version") 0) 3 st = [] := by
      simpa [CURRENT_MIGRATION_VERSION] using he
    refine ⟨[(("migration_version" : String), .vInt 3)], ?_, by simp [dictGet], by simp [dictGetLast], by simp⟩
    simp [migrate_existing_session, hn, he', CURRENT_MIGRATION_VERSION]
    exact h
  · have hnc := get_migration_updates_no_version (stateGetIntD st ("migration_version") 0)
      CURRENT_MIGRATION_VERSION st
    have happ := dictSet_eq_append _ ("migration_version") (PyVal.vInt CURRENT_MIGRATION_VERSION) hnc
    refine ⟨get_migration_updates (stateGetIntD st ("migration_version") 0)
        CURRENT_MIGRATION_VERSION st ++ [("migration_version", .vInt 3)], ?_, ?_, ?_, ?_⟩
    · simp only [migrate_existing_session, CURRENT_MIGRATION_VERSION] at *
      rw [if_neg hn, if_neg (by simpa using he), happ]
    · rw [dictGet_append_left _ _ _ hnc]
      simp [dictGet]
    · exact dictGetLast_append_single _ _ _
    · simp

/-- CLAIM C2 (non-destructive migration): for every existing state and
every pair of versions `currentVersion < targetVersion`, the delta
returned by `get_migration_updates` contains no key already present in
the existing state, and applying the delta to the projected state leaves
every existing key bound to its old value. -/
theorem c2_nondestructive_migration (cv tv : Int) (st : StateD) (hv : cv < tv) :
    (∀ k, dictContains (get_migration_updates cv tv st) k = true →
      dictContains st k = false) ∧
    (∀ k, dictContains st k = true →
      dictGet (applyDelta st (get_migration_updates cv tv st)) k = dictGet st k) := by
  constructor
  · intro k hk
    exact (get_migration_updates_contains cv tv st k hk).1
  · intro k hk
    have habs : dictContains (get_migration_updates cv tv st) k = false := by
      cases hc : dictContains (get_migration_updates cv tv st) k with
      | false => rfl
      | true =>
        have := (get_migration_updates_contains cv tv st k hc).1
        rw [this] at hk
        exact absurd hk (by simp)
    rw [dictGet_applyDelta, dictGetLast_eq_none _ _ habs]

/-- Witness for C2 at a concrete input: migrating a v0 state that already
has `profile:name` emits a delta without `profile:name`, and applying the
delta preserves the stored value. -/
theorem c2_nondestructive_migration_witness :
    dictContains [(("profile:name" : String), PyVal.vStr ("existing"))] ("profile:timezone") = false ∧
    dictGet (applyDelta [(("profile:name" : String), PyVal.vStr ("existing"))]
        (get_migration_updates 0 3 [(("profile:name" : String), PyVal.vStr ("existing"))]))
      ("profile:name") = some (.vStr ("existing")) := by
  refine ⟨?_, ?_⟩
  · exact (c2_nondestructive_migration 0 3 _ (by norm_num)).1 ("profile:timezone") (by decide)
  · exact (c2_nondestructive_migration 0 3 _ (by norm_num)).2 ("profile:name") (by decide)

/-- CLAIM C5 (monotonic migration version): a session stored below the
current version migrates to an event whose delta sets `migration_version`
to `CURRENT_MIGRATION_VERSION`, and re-running the migration on the
session with that delta applied returns `none`. -/
theorem c5_monotonic_migration_version (st : StateD) (v : Int)
    (hst : dictGet st ("migration_version") = some (.vInt v) ∨
      (dictGet st ("migration_version") = none ∧ v = 0))
    (hv : v < CURRENT_MIGRATION_VERSION) :
    ∃ e, migrate_existing_session st = some e ∧
      dictGet (eventDelta e) ("migration_version") = some (.vInt CURRENT_MIGRATION_VERSION) ∧
      migrate_existing_session (applyDelta st (eventDelta e)) = none := by
  have hcur : stateGetIntD st ("migration_version") 0 = v := by
    rcases hst with hst | ⟨hst, rfl⟩ <;> simp [stateGetIntD, hst]
  have hlt : stateGetIntD st ("migration_version") 0 < 3 := by
    rw [hcur]
    simpa [CURRENT_MIGRATION_VERSION] using hv
  rcases migrate_some st hlt with ⟨d, hm, hget, hlast, -⟩
  refine ⟨_, hm, ?_, ?_⟩
  · simpa [eventDelta, CURRENT_MIGRATION_VERSION] using hget
  · have hafter : dictGet (applyDelta st d) ("migration_version") = some (.vInt 3) := by
      rw [dictGet_applyDelta, hlast]
    simp [migrate_existing_session, eventDelta, stateGetIntD, hafter, CURRENT_MIGRATION_VERSION]

/-- Witness for C5 at the empty state (stored version absent, read as 0). -/
theorem c5_monotonic_migration_version_witness :
    ∃ e, migrate_existing_session [] = some e ∧
      dictGet (eventDelta e) ("migration_version") = some (.vInt CURRENT_MIGRATION_VERSION) ∧
      migrate_existing_session (applyDelta [] (eventDelta e)) = none :=
  c5_monotonic_migration_version [] 0 (Or.inr ⟨rfl, rfl⟩) (by norm_num [CURRENT_MIGRATION_VERSION])

/-- CLAIM C8, counterexample: on a brand-new empty session,
`initialize_session_state` produces a delta that contains
`migration_version` and other migration keys (for example
`profile:name`), yet its last key is `is_new_session`, not
`migration_version` — the bookkeeping keys are written after the version
bump. -/
theorem c8_version_bump_last_counterexample :
    ((initialize_session_state [] 0).map
      (fun e => ((eventDelta e).map Prod.fst).getLast?)) = some (some ("is_new_session")) ∧
    ((initialize_session_state [] 0).map
      (fun e => dictContains (eventDelta e) ("migration_version"))) = some true ∧
    ((initialize_session_state [] 0).map
      (fun e => dictContains (eventDelta e) ("profile:name"))) = some true := by
  refine ⟨by decide, by decide, by decide⟩

/-- CLAIM C8, amended: the deltas of `migrate_existing_session` do end
with the `migration_version` key, but `initialize_session_state` writes
the `DEFAULT_APP_STATE` keys and the session bookkeeping keys
(`session_start_time`, `is_new_session`) after the version bump, so only
the migration path has the bump last. -/
theorem c8_version_bump_last_amended (st : StateD) (e : PyVal)
    (hint : intLike (dictGet st ("migration_version")))
    (h : migrate_existing_session st = some e) :
    ((eventDelta e).map Prod.fst).getLast? = some ("migration_version") := by
  by_cases hlt : stateGetIntD st ("migration_version") 0 < 3
  · rcases migrate_some st hlt with ⟨d, hm, -, -, hlast⟩
    rw [hm] at h
    cases h
    simpa [eventDelta] using hlast
  · have : migrate_existing_session st = none := by
      simp [migrate_existing_session, CURRENT_MIGRATION_VERSION]
      omega
    rw [this] at h
    exact Option.noConfusion h

/-- Witness for the amended C8 at the empty state. -/
theorem c8_version_bump_last_witness :
    ((migrate_existing_session []).map
      (fun e => ((eventDelta e).map Prod.fst).getLast?)) = some (some ("migration_version")) := by
  cases hm : migrate_existing_session [] with
  | none =>
    rcases migrate_some [] (by decide) with ⟨d, hm2, -, -, -⟩
    rw [hm2] at hm
    exact Option.noConfusion hm
  | some e =>
    simpa using c8_version_bump_last_amended [] e (Or.inl rfl) hm

/-- CLAIM C1, counterexample: on a session whose state already contains
every default profile/system key and is at the current migration
version, `initialize_session_state` still returns an event, and its
delta has size two (`session_start_time`, `is_new_session`), not zero. -/
theorem c1_idempotent_bootstrap_counterexample :
    ((initialize_session_state fullDefaultsState 0).map
      (fun e => (eventDelta e).map Prod.fst))
      = some [("session_start_time"), ("is_new_session")] := by
  decide

/-- CLAIM C1, amended: `initialize_session_state` unconditionally stages
the session bookkeeping keys, so its delta is never empty and it always
returns an init event; the idempotence that does hold is that the
existing-session path of `find_or_create_session` only consults
`migrate_existing_session`, which appends nothing for a session at the
current migration version, so a second `findOrCreate` with the same
existing session id appends no additional event. -/
theorem c1_idempotent_bootstrap_amended :
    (∀ (st : StateD) (now : Rat), intLike (dictGet st ("migration_version")) →
      (initialize_session_state st now).isSome = true) ∧
    (∀ st : StateD, dictGet st ("migration_version") = some (.vInt CURRENT_MIGRATION_VERSION) →
      find_or_create_existing_appends st = []) := by
  constructor
  · intro st now _
    by_cases hc : dictContains st ("migration_version") = true <;>
      simp [initialize_session_state, hc, dictSet_isEmpty]
  · intro st hst
    simp [find_or_create_existing_appends, migrate_existing_session, stateGetIntD, hst,
      CURRENT_MIGRATION_VERSION]

/-- Witness for the amended C1 at the fully-populated up-to-date state. -/
theorem c1_idempotent_bootstrap_witness :
    (initialize_session_state fullDefaultsState 0).isSome = true ∧
    find_or_create_existing_appends fullDefaultsState = [] := by
  constructor
  · exact c1_idempotent_bootstrap_amended.1 fullDefaultsState 0 (Or.inr ⟨3, by rfl⟩)
  · exact c1_idempotent_bootstrap_amended.2 fullDefaultsState (by rfl)

/- ### Queue flush -/

theorem stateGetListD_stage (st : StateD) (e : PyVal) (n : String) (t : Rat) :
    stateGetListD (stagePendingEntry st e n t) PENDING_KEY
      = stateGetListD st PENDING_KEY ++ [mkPendingEntry e n t] := by
  simp [stagePendingEntry, stateGetListD, dictGet_dictSet_self]

/-- CLAIM C3 (queue flush ordering): staging three pending entries `A`,
`B`, `C` in turn and then flushing appends to the store exactly the three
staged events in order followed by one cleanup event, and the cleanup
event's delta resets the pending-list key to the empty list (as does the
in-memory state). -/
theorem c3_queue_flush_ordering (s0 : StateD) (eA eB eC : PyVal) (nA nB nC : String)
    (tA tB tC : Rat) (nowI : Int)
    (h0 : stateGetListD s0 PENDING_KEY = []) :
    process_pending_state_persistence (fun _ => true) nowI
        (stagePendingEntry (stagePendingEntry (stagePendingEntry s0 eA nA tA) eB nB tB) eC nC tC)
      = ([eA, eB, eC, mkCleanupEvent nowI 3],
          dictSet
            (stagePendingEntry (stagePendingEntry (stagePendingEntry s0 eA nA tA) eB nB tB) eC nC tC)
            PENDING_KEY (.vList [])) ∧
    eventDelta (mkCleanupEvent nowI 3) = [(PENDING_KEY, .vList [])] := by
  have hp : stateGetListD
      (stagePendingEntry (stagePendingEntry (stagePendingEntry s0 eA nA tA) eB nB tB) eC nC tC)
      PENDING_KEY
      = [mkPendingEntry eA nA tA, mkPendingEntry eB nB tB, mkPendingEntry eC nC tC] := by
    simp [stateGetListD_stage, h0]
  refine ⟨?_, rfl⟩
  simp [process_pending_state_persistence, hp, flushLoop, entryEvent, mkPendingEntry, dictGet]

/-- Witness for C3 with three concrete staged events. -/
theorem c3_queue_flush_ordering_witness :
    process_pending_state_persistence (fun _ => true) 0
        (stagePendingEntry
          (stagePendingEntry (stagePendingEntry [] (.vEvent ("tool") ("A") [] ("a")) ("t1") 1)
            (.vEvent ("tool") ("B") [] ("b")) ("t2") 2)
          (.vEvent ("tool") ("C") [] ("c")) ("t3") 3)
      = ([.vEvent ("tool") ("A") [] ("a"), .vEvent ("tool") ("B") [] ("b"),
          .vEvent ("tool") ("C") [] ("c"), mkCleanupEvent 0 3],
          dictSet
            (stagePendingEntry
              (stagePendingEntry (stagePendingEntry [] (.vEvent ("tool") ("A") [] ("a")) ("t1") 1)
                (.vEvent ("tool") ("B") [] ("b")) ("t2") 2)
              (.vEvent ("tool") ("C") [] ("c")) ("t3") 3)
            PENDING_KEY (.vList [])) ∧
    eventDelta (mkCleanupEvent 0 3) = [(PENDING_KEY, .vList [])] :=
  c3_queue_flush_ordering [] (.vEvent ("tool") ("A") [] ("a")) (.vEvent ("tool") ("B") [] ("b"))
    (.vEvent ("tool") ("C") [] ("c")) ("t1") ("t2") ("t3") 1 2 3 0 rfl

/-- CLAIM C6 (partial persistence failure isolation): if the store
append fails exactly on staged entry `B`, the flush still appends `A` and
`C` (in order) and the queue is still cleared — the in-memory pending
list is reset and the cleanup event is appended. -/
theorem c6_partial_failure_isolation (s0 : StateD) (eA eB eC : PyVal) (nA nB nC : String)
    (tA tB tC : Rat) (nowI : Int) (svc : PyVal → Bool)
    (h0 : stateGetListD s0 PENDING_KEY = [])
    (hA : svc eA = true) (hB : svc eB = false) (hC : svc eC = true)
    (hclean : svc (mkCleanupEvent nowI 3) = true) :
    process_pending_state_persistence svc nowI
        (stagePendingEntry (stagePendingEntry (stagePendingEntry s0 eA nA tA) eB nB tB) eC nC tC)
      = ([eA, eC, mkCleanupEvent nowI 3],
          dictSet
            (stagePendingEntry (stagePendingEntry (stagePendingEntry s0 eA nA tA) eB nB tB) eC nC tC)
            PENDING_KEY (.vList [])) := by
  have hp : stateGetListD
      (stagePendingEntry (stagePendingEntry (stagePendingEntry s0 eA nA tA) eB nB tB) eC nC tC)
      PENDING_KEY
      = [mkPendingEntry eA nA tA, mkPendingEntry eB nB tB, mkPendingEntry eC nC tC] := by
    simp [stateGetListD_stage, h0]
  simp [process_pending_state_persistence, hp, flushLoop, entryEvent, mkPendingEntry, dictGet,
    hA, hB, hC, hclean]

/-- Witness for C6: the append of the event with invocation id `B` fails,
the others succeed. -/
theorem c6_partial_failure_isolation_witness :
    process_pending_state_persistence (fun e => eventInvocationId e != ("B")) 0
        (stagePendingEntry
          (stagePendingEntry (stagePendingEntry [] (.vEvent ("tool") ("A") [] ("a")) ("t1") 1)
            (.vEvent ("tool") ("B") [] ("b")) ("t2") 2)
          (.vEvent ("tool") ("C") [] ("c")) ("t3") 3)
      = ([.vEvent ("tool") ("A") [] ("a"), .vEvent ("tool") ("C") [] ("c"), mkCleanupEvent 0 3],
          dictSet
            (stagePendingEntry
              (stagePendingEntry (stagePendingEntry [] (.vEvent ("tool") ("A") [] ("a")) ("t1") 1)
                (.vEvent ("tool") ("B") [] ("b")) ("t2") 2)
              (.vEvent ("tool") ("C") [] ("c")) ("t3") 3)
            PENDING_KEY (.vList [])) :=
  c6_partial_failure_isolation [] (.vEvent ("tool") ("A") [] ("a")) (.vEvent ("tool") ("B") [] ("b"))
    (.vEvent ("tool") ("C") [] ("c")) ("t1") ("t2") ("t3") 1 2 3 0
    (fun e => eventInvocationId e != ("B")) rfl rfl rfl rfl rfl

/- ### Retention classifier -/

/-- CLAIM C7, counterexample: `_should_save_session_to_memory` is not
independent of when it runs.  With an identical session state (two
turns, no reminders, `session_start_time = 0`) and the identical latest
message `"ok"`, the call returns `false` at `time.time() = 10` but `true`
at `time.time() = 400` (the five-minute engagement rule fires). -/
theorem c7_retention_determinism_counterexample :
    _should_save_session_to_memory turnTwoState ("ok") 10 = false ∧
    _should_save_session_to_memory turnTwoState ("ok") 400 = true := by
  constructor
  · show shouldSaveCore 2 [] ((10 : Rat) - 0) ("ok") = false
    have h : (10 : Rat) - 0 = 10 := by norm_num
    rw [h]
    decide
  · show shouldSaveCore 2 [] ((400 : Rat) - 0) ("ok") = true
    have h : (400 : Rat) - 0 = 400 := by norm_num
    rw [h]
    decide

/-- CLAIM C7, amended: the classifier is a deterministic, pure function
of the session state counters it reads (`conversation_turn_count`,
`user:reminders`, `session_start_time`), the latest message text, and the
wall-clock time of the call — it reads nothing else from the state; but
because the session-duration rule compares against the current time, two
invocations at different times can differ. -/
theorem c7_retention_determinism_amended (s1 s2 : StateD) (m : String) (now : Rat)
    (ht : dictGet s1 ("conversation_turn_count") = dictGet s2 ("conversation_turn_count"))
    (hr : dictGet s1 ("user:reminders") = dictGet s2 ("user:reminders"))
    (hs : dictGet s1 ("session_start_time") = dictGet s2 ("session_start_time")) :
    _should_save_session_to_memory s1 m now = _should_save_session_to_memory s2 m now := by
  simp only [_should_save_session_to_memory, stateGetIntD, stateGetListD, stateGetNumD,
    ht, hr, hs]

/-- Witness for the amended C7: a state extended with an unrelated key
classifies identically. -/
theorem c7_retention_determinism_witness :
    _should_save_session_to_memory turnTwoState ("ok") 10 =
      _should_save_session_to_memory (turnTwoState ++ [("unrelated", .vInt 7)]) ("ok") 10 :=
  c7_retention_determinism_amended turnTwoState (turnTwoState ++ [("unrelated", .vInt 7)])
    ("ok") 10 rfl rfl rfl

/- ### Character facts: a word made of letters never parses as an int -/

theorem char_facts_of_alpha (c : Char) (h : c.isAlpha = true) :
    c.isWhitespace = false ∧ c.isDigit = false ∧ c ≠ '-' ∧ c ≠ '+' := by
  simp only [Char.isAlpha, Char.isUpper, Char.isLower, Bool.or_eq_true, Bool.and_eq_true,
    decide_eq_true_eq] at h
  have hn : (65 ≤ c.toNat ∧ c.toNat ≤ 90) ∨ (97 ≤ c.toNat ∧ c.toNat ≤ 122) := by
    rcases h with ⟨h1, h2⟩ | ⟨h1, h2⟩
    · exact Or.inl ⟨h1, h2⟩
    · exact Or.inr ⟨h1, h2⟩
  refine ⟨?_, ?_, ?_, ?_⟩
  · cases hw : c.isWhitespace with
    | false => rfl
    | true =>
      exfalso
      simp only [Char.isWhitespace, Bool.or_eq_true, decide_eq_true_eq] at hw
      rcases hw with ((rfl | rfl) | rfl) | rfl <;> revert hn <;> decide
  · cases hd : c.isDigit with
    | false => rfl
    | true =>
      exfalso
      simp only [Char.isDigit, Bool.and_eq_true, decide_eq_true_eq] at hd
      have hd1 : 48 ≤ c.toNat := hd.1
      have hd2 : c.toNat ≤ 57 := hd.2
      omega
  · rintro rfl
    revert hn
    decide
  · rintro rfl
    revert hn
    decide

theorem char_alpha_of_toLower (c : Char) (h : (Char.toLower c).isAlpha = true) :
    c.isAlpha = true := by
  simp only [Char.toLower] at h
  by_cases hr : c.toNat ≥ 65 ∧ c.toNat ≤ 90
  · simp only [Char.isAlpha, Char.isUpper, Char.isLower, Bool.or_eq_true, Bool.and_eq_true,
      decide_eq_true_eq]
    exact Or.inl ⟨hr.1, hr.2⟩
  · rw [if_neg hr] at h
    exact h

theorem dropWhile_eq_self_of_head (p : Char → Bool) (l : List Char)
    (h : ∀ c ∈ l, p c = false) : l.dropWhile p = l := by
  cases l with
  | nil => rfl
  | cons c cs => simp [List.dropWhile, h c (by simp)]

theorem pyParseInt_none_of_alpha (s : String)
    (h : ∀ c ∈ s.data, (Char.toLower c).isAlpha = true) : pyParseInt s = none := by
  have halpha : ∀ c ∈ s.data, c.isAlpha = true :=
    fun c hc => char_alpha_of_toLower c (h c hc)
  have hws : ∀ c ∈ s.data, c.isWhitespace = false :=
    fun c hc => (char_facts_of_alpha c (halpha c hc)).1
  have htrim : ((s.data.dropWhile Char.isWhitespace).reverse.dropWhile Char.isWhitespace).reverse
      = s.data := by
    rw [dropWhile_eq_self_of_head _ _ hws,
      dropWhile_eq_self_of_head _ _ (fun c hc => hws c (List.mem_reverse.mp hc)),
      List.reverse_reverse]
  simp only [pyParseInt, htrim]
  cases hsd : s.data with
  | nil => rfl
  | cons c cs =>
    have hc : c ∈ s.data := by
      rw [hsd]
      simp
    rcases char_facts_of_alpha c (halpha c hc) with ⟨-, hdig, hdash, hplus⟩
    have hall : ((c :: cs).all Char.isDigit) = false := by
      simp only [List.all_cons, Bool.and_eq_false_iff]
      exact Or.inl hdig
    simp [hdash, hplus, parseDigits, hall]

theorem pyParseInt_none_of_pyLower (s t : String) (h : pyLower s = t)
    (ht : t.data.all Char.isAlpha = true) : pyParseInt s = none := by
  refine pyParseInt_none_of_alpha s ?_
  intro c hc
  have hmem : Char.toLower c ∈ t.data := by
    have : (pyLower s).data = s.data.map Char.toLower := rfl
    rw [← h, this]
    exact List.mem_map_of_mem _ hc
  simp only [List.all_eq_true] at ht
  exact ht _ hmem

/- ### CLAIM C4: the positional lexicon -/

/-- CLAIM C4, counterexample: the spec's lexicon words beyond
`first`/`second`/`third`/`last` are not recognized.  On a five-item list
the identifier `fourth` does not resolve to index 3 — it falls through to
substring matching and yields the not-found error result — and `1st`
likewise does not resolve to index 0. -/
theorem c4_ordinal_lexicon_counterexample :
    resolveReminderReference items5 ("fourth") = .ok none ∧
    updateReminderRun items5 ("fourth") ("x") 0 ("d") = .ok (.notFoundError, items5) ∧
    resolveReminderReference items5 ("1st") = .ok none := by
  refine ⟨rfl, rfl, rfl⟩

/-- CLAIM C4, amended: the implemented lexicon, applied case-
insensitively after the integer parse fails, is exactly `first → 0`,
`last → len-1`, `second → 1` (only when more than one item exists), and
`third → 2` (only when more than two exist); `1st`/`2nd`/`3rd`/`4th`/
`5th`/`fourth`/`fifth`/`latest`/`newest` are not part of it. -/
theorem c4_ordinal_lexicon_amended (reminders : List PyVal) (ref : String)
    (hne : reminders ≠ []) :
    (pyLower ref = "first" → resolveReminderReference reminders ref = .ok (some 0)) ∧
    (pyLower ref = "last" →
      resolveReminderReference reminders ref = .ok (some (reminders.length - 1))) ∧
    (pyLower ref = "second" → 1 < reminders.length →
      resolveReminderReference reminders ref = .ok (some 1)) ∧
    (pyLower ref = "third" → 2 < reminders.length →
      resolveReminderReference reminders ref = .ok (some 2)) := by
  refine ⟨?_, ?_, ?_, ?_⟩
  · intro h
    have hp : pyParseInt ref = none := pyParseInt_none_of_pyLower ref _ h (by decide)
    simp [resolveReminderReference, hp, h]
  · intro h
    have hp : pyParseInt ref = none := pyParseInt_none_of_pyLower ref _ h (by decide)
    simp [resolveReminderReference, hp, h]
  · intro h hlen
    have hp : pyParseInt ref = none := pyParseInt_none_of_pyLower ref _ h (by decide)
    simp [resolveReminderReference, hp, h, hlen]
  · intro h hlen
    have hp : pyParseInt ref = none := pyParseInt_none_of_pyLower ref _ h (by decide)
    simp [resolveReminderReference, hp, h, hlen]

/-- Witness for the amended C4: mixed-case positional words on the
five-item list. -/
theorem c4_ordinal_lexicon_witness :
    resolveReminderReference items5 ("FIRST") = .ok (some 0) ∧
    resolveReminderReference items5 ("Last") = .ok (some 4) ∧
    resolveReminderReference items5 ("Second") = .ok (some 1) ∧
    resolveReminderReference items5 ("THIRD") = .ok (some 2) := by
  have hne : items5 ≠ [] := by simp [items5]
  refine ⟨?_, ?_, ?_, ?_⟩
  · exact (c4_ordinal_lexicon_amended items5 ("FIRST") hne).1 (by decide)
  · exact (c4_ordinal_lexicon_amended items5 ("Last") hne).2.1 (by decide)
  · exact (c4_ordinal_lexicon_amended items5 ("Second") hne).2.2.1 (by decide) (by decide)
  · exact (c4_ordinal_lexicon_amended items5 ("THIRD") hne).2.2.2 (by decide) (by decide)

/- ### CLAIM C9: the content-similarity loop -/

/-- Soundness of the content-similarity loop: if the loop started at
position `i` with running best `best` and carried index `idx` finishes
without raising, then either it returns the carried index and no item of
the remaining list scores above `best`, or it returns the position of an
item that strictly beats `best`, is a maximum of all scores, and is
strictly above every earlier item's score (so ties keep the first). -/
theorem findByContentAux_spec (ref : String) (rest : List PyVal) (i : Nat) (best : Rat)
    (idx : Option Nat) (out : Option Nat)
    (h : findByContentAux ref rest i best idx = .ok out) :
    (out = idx ∧ ∀ (j : Nat) (hj : j < rest.length) (q : Rat),
        matchScore ref (rest.get ⟨j, hj⟩) = some q → q ≤ best) ∨
    (∃ (j : Nat) (hj : j < rest.length) (q : Rat),
        out = some (i + j) ∧ matchScore ref (rest.get ⟨j, hj⟩) = some q ∧ best < q ∧
        (∀ (j2 : Nat) (hj2 : j2 < rest.length) (q2 : Rat),
          matchScore ref (rest.get ⟨j2, hj2⟩) = some q2 → q2 ≤ q) ∧
        (∀ (j2 : Nat) (hj2 : j2 < rest.length), j2 < j → ∀ (q2 : Rat),
          matchScore ref (rest.get ⟨j2, hj2⟩) = some q2 → q2 < q)) := by
  induction rest generalizing i best idx with
  | nil =>
    have hout : idx = out := by simpa [findByContentAux] using h
    subst hout
    left
    refine ⟨rfl, ?_⟩
    intro j hj
    exact absurd hj (by simp)
  | cons r rest ih =>
    simp only [findByContentAux] at h
    cases hrt : reminderText r with
    | none =>
      simp only [hrt] at h
      exact absurd h (by simp)
    | some t =>
      simp only [hrt] at h
      by_cases hin : pyInStr (pyLower ref) (pyLower t) = true
      · rw [if_pos hin] at h
        by_cases hlen : t.length = 0
        · rw [if_pos hlen] at h
          exact absurd h (by simp)
        · rw [if_neg hlen] at h
          have hms : matchScore ref r = some ((ref.length : Rat) / (t.length : Rat)) := by
            simp [matchScore, hrt, hin, hlen]
          by_cases hgt : (ref.length : Rat) / (t.length : Rat) > best
          · rw [if_pos hgt] at h
            rcases ih _ _ _ h with ⟨hout, hbound⟩ | ⟨j, hj, q, hout, hmsj, hlt, hmax, hstrict⟩
            · right
              refine ⟨0, by simp, (ref.length : Rat) / (t.length : Rat), hout, hms, hgt, ?_, ?_⟩
              · intro j2 hj2 q2 hms2
                cases j2 with
                | zero =>
                  have hms0 : matchScore ref r = some q2 := hms2
                  rw [hms] at hms0
                  exact le_of_eq (Option.some.inj hms0).symm
                | succ j2 =>
                  have hmss : matchScore ref (rest.get ⟨j2, Nat.lt_of_succ_lt_succ hj2⟩)
                      = some q2 := hms2
                  exact hbound j2 (Nat.lt_of_succ_lt_succ hj2) q2 hmss
              · intro j2 hj2 hj20
                exact absurd hj20 (by omega)
            · right
              refine ⟨j + 1, Nat.succ_lt_succ hj, q, ?_, hmsj, lt_trans hgt hlt, ?_, ?_⟩
              · rw [hout]
                congr 1
                omega
              · intro j2 hj2 q2 hms2
                cases j2 with
                | zero =>
                  have hms0 : matchScore ref r = some q2 := hms2
                  rw [hms] at hms0
                  exact le_of_lt (lt_of_le_of_lt (le_of_eq (Option.some.inj hms0).symm) hlt)
                | succ j2 =>
                  have hmss : matchScore ref (rest.get ⟨j2, Nat.lt_of_succ_lt_succ hj2⟩)
                      = some q2 := hms2
                  exact hmax j2 (Nat.lt_of_succ_lt_succ hj2) q2 hmss
              · intro j2 hj2 hj2j q2 hms2
                cases j2 with
                | zero =>
                  have hms0 : matchScore ref r = some q2 := hms2
                  rw [hms] at hms0
                  exact lt_of_le_of_lt (le_of_eq (Option.some.inj hms0).symm) hlt
                | succ j2 =>
                  have hmss : matchScore ref (rest.get ⟨j2, Nat.lt_of_succ_lt_succ hj2⟩)
                      = some q2 := hms2
                  exact hstrict j2 (Nat.lt_of_succ_lt_succ hj2) (by omega) q2 hmss
          · rw [if_neg hgt] at h
            have hle : (ref.length : Rat) / (t.length : Rat) ≤ best := le_of_not_lt hgt
            rcases ih _ _ _ h with ⟨hout, hbound⟩ | ⟨j, hj, q, hout, hmsj, hlt, hmax, hstrict⟩
            · left
              refine ⟨hout, ?_⟩
              intro j2 hj2 q2 hms2
              cases j2 with
              | zero =>
                have hms0 : matchScore ref r = some q2 := hms2
                rw [hms] at hms0
                exact le_trans (le_of_eq (Option.some.inj hms0).symm) hle
              | succ j2 =>
                have hmss : matchScore ref (rest.get ⟨j2, Nat.lt_of_succ_lt_succ hj2⟩)
                    = some q2 := hms2
                exact hbound j2 (Nat.lt_of_succ_lt_succ hj2) q2 hmss
            · right
              refine ⟨j + 1, Nat.succ_lt_succ hj, q, ?_, hmsj, hlt, ?_, ?_⟩
              · rw [hout]
                congr 1
                omega
              · intro j2 hj2 q2 hms2
                cases j2 with
                | zero =>
                  have hms0 : matchScore ref r = some q2 := hms2
                  rw [hms] at hms0
                  exact le_trans (le_of_eq (Option.some.inj hms0).symm)
                    (le_of_lt (lt_of_le_of_lt hle hlt))
                | succ j2 =>
                  have hmss : matchScore ref (rest.get ⟨j2, Nat.lt_of_succ_lt_succ hj2⟩)
                      = some q2 := hms2
                  exact hmax j2 (Nat.lt_of_succ_lt_succ hj2) q2 hmss
              · intro j2 hj2 hj2j q2 hms2
                cases j2 with
                | zero =>
                  have hms0 : matchScore ref r = some q2 := hms2
                  rw [hms] at hms0
                  exact lt_of_le_of_lt (le_trans (le_of_eq (Option.some.inj hms0).symm) hle) hlt
                | succ j2 =>
                  have hmss : matchScore ref (rest.get ⟨j2, Nat.lt_of_succ_lt_succ hj2⟩)
                      = some q2 := hms2
                  exact hstrict j2 (Nat.lt_of_succ_lt_succ hj2) (by omega) q2 hmss
      · rw [if_neg hin] at h
        have hmsnone : matchScore ref r = none := by simp [matchScore, hrt, hin]
        rcases ih _ _ _ h with ⟨hout, hbound⟩ | ⟨j, hj, q, hout, hmsj, hlt, hmax, hstrict⟩
        · left
          refine ⟨hout, ?_⟩
          intro j2 hj2 q2 hms2
          cases j2 with
          | zero =>
            have hms0 : matchScore ref r = some q2 := hms2
            rw [hmsnone] at hms0
            exact absurd hms0 (by simp)
          | succ j2 =>
            have hmss : matchScore ref (rest.get ⟨j2, Nat.lt_of_succ_lt_succ hj2⟩)
                = some q2 := hms2
            exact hbound j2 (Nat.lt_of_succ_lt_succ hj2) q2 hmss
        · right
          refine ⟨j + 1, Nat.succ_lt_succ hj, q, ?_, hmsj, hlt, ?_, ?_⟩
          · rw [hout]
            congr 1
            omega
          · intro j2 hj2 q2 hms2
            cases j2 with
            | zero =>
              have hms0 : matchScore ref r = some q2 := hms2
              rw [hmsnone] at hms0
              exact absurd hms0 (by simp)
            | succ j2 =>
              have hmss : matchScore ref (rest.get ⟨j2, Nat.lt_of_succ_lt_succ hj2⟩)
                  = some q2 := hms2
              exact hmax j2 (Nat.lt_of_succ_lt_succ hj2) q2 hmss
          · intro j2 hj2 hj2j q2 hms2
            cases j2 with
            | zero =>
              have hms0 : matchScore ref r = some q2 := hms2
              rw [hmsnone] at hms0
              exact absurd hms0 (by simp)
            | succ j2 =>
              have hmss : matchScore ref (rest.get ⟨j2, Nat.lt_of_succ_lt_succ hj2⟩)
                  = some q2 := hms2
              exact hstrict j2 (Nat.lt_of_succ_lt_succ hj2) (by omega) q2 hmss

/-- CLAIM C9 (substring match with best-score tie-break): whenever the
resolution step resolves an identifier that parses as neither an integer
nor a lexicon word to an index, that index carries a positive match
score `len(identifier)/len(text)`, no item scores higher, and every
earlier item scores strictly lower (ties keep the lowest index); in
particular on `["Call John", "Buy milk", "Finish report"]` the
identifier `milk` resolves to index 1 and `xyz` yields the not-found
error result. -/
theorem c9_substring_best_score :
    (∀ (reminders : List PyVal) (ref : String) (i : Nat),
      pyParseInt ref = none →
      pyLower ref ∉ CODE_LEXICON →
      resolveReminderReference reminders ref = .ok (some i) →
      ∃ hi : i < reminders.length, ∃ q : Rat,
        matchScore ref (reminders.get ⟨i, hi⟩) = some q ∧ 0 < q ∧
        (∀ (j : Nat) (hj : j < reminders.length) (q2 : Rat),
          matchScore ref (reminders.get ⟨j, hj⟩) = some q2 → q2 ≤ q) ∧
        (∀ (j : Nat) (hj : j < reminders.length), j < i → ∀ (q2 : Rat),
          matchScore ref (reminders.get ⟨j, hj⟩) = some q2 → q2 < q)) ∧
    resolveReminderReference items3 ("milk") = .ok (some 1) ∧
    updateReminderRun items3 ("xyz") ("new") 0 ("d") = .ok (.notFoundError, items3) := by
  refine ⟨?_, ?_, rfl⟩
  · intro reminders ref i hparse hlex hres
    simp only [CODE_LEXICON, List.mem_cons, List.not_mem_nil, or_false, not_or] at hlex
    obtain ⟨hf, hl, hs, ht⟩ := hlex
    rw [resolveReminderReference, hparse] at hres
    rw [if_neg hf, if_neg hl, if_neg (fun hc => hs hc.1), if_neg (fun hc => ht hc.1)] at hres
    rcases findByContentAux_spec ref reminders 0 0 none (some i) hres with
      ⟨hout, -⟩ | ⟨j, hj, q, hout, hms, hq, hmax, hstrict⟩
    · exact absurd hout (by simp)
    · have hij : i = j := by simpa using hout
      subst hij
      exact ⟨hj, q, hms, hq, hmax, hstrict⟩
  · have h1 : ((0 : Rat) < 4 / 8) = True := by norm_num
    have hl1 : ("milk" : String).length = 4 := rfl
    have hl2 : ("Buy milk" : String).length = 8 := rfl
    simp [resolveReminderReference, pyParseInt, parseDigits, findByContent, findByContentAux,
      reminderText, items3, pyInStr, pyInAux, pyLower, hl1, hl2, Nat.cast_ofNat, h1]

/-- Witness for C9 applying the general soundness statement to the
`milk` example. -/
theorem c9_substring_best_score_witness :
    ∃ hi : 1 < items3.length, ∃ q : Rat,
      matchScore ("milk") (items3.get ⟨1, hi⟩) = some q ∧ 0 < q ∧
      (∀ (j : Nat) (hj : j < items3.length) (q2 : Rat),
        matchScore ("milk") (items3.get ⟨j, hj⟩) = some q2 → q2 ≤ q) ∧
      (∀ (j : Nat) (hj : j < items3.length), j < 1 → ∀ (q2 : Rat),
        matchScore ("milk") (items3.get ⟨j, hj⟩) = some q2 → q2 < q) :=
  c9_substring_best_score.1 items3 ("milk") 1 (by decide) (by decide)
    c9_substring_best_score.2.1

/- ### CLAIM C10: totality of resolution -/

/-- Is a tool run outcome a structured result (rather than a raised
exception)? -/
def exceptOk : Except PyErr (RunOutcome × List PyVal) → Bool
  | .ok _ => true
  | .error _ => false

/-- The content-similarity loop finishes without raising on well-formed
items, unless the identifier is empty and some item's text is empty. -/
theorem findByContentAux_total (ref : String) (rest : List PyVal) :
    ∀ (i : Nat) (best : Rat) (idx : Option Nat),
      (∀ r ∈ rest, WellFormedItem r) →
      ¬(ref = "" ∧ ∃ r ∈ rest, EmptyTextItem r) →
      ∃ out, findByContentAux ref rest i best idx = .ok out := by
  induction rest with
  | nil =>
    intro i best idx _ _
    exact ⟨idx, rfl⟩
  | cons r rest ih =>
    intro i best idx hwf hne
    obtain ⟨t, hrt⟩ : ∃ t, reminderText r = some t := by
      rcases hwf r (by simp) with ⟨s, rfl⟩ | ⟨d, rfl, s, hd⟩
      · exact ⟨s, rfl⟩
      · exact ⟨s, by simp [reminderText, hd]⟩
    have hwf' : ∀ x ∈ rest, WellFormedItem x := fun x hx => hwf x (by simp [hx])
    have hne' : ¬(ref = "" ∧ ∃ x ∈ rest, EmptyTextItem x) := by
      rintro ⟨rfl, x, hx, hex⟩
      exact hne ⟨rfl, x, by simp [hx], hex⟩
    simp only [findByContentAux, hrt]
    by_cases hin : pyInStr (pyLower ref) (pyLower t) = true
    · rw [if_pos hin]
      by_cases hlen : t.length = 0
      · exfalso
        have htd : t.data = [] := List.length_eq_zero.mp hlen
        have href : ref.data = [] := by
          have h0 : pyInAux (pyLower ref).data (pyLower t).data = true := hin
          have h1 : (pyLower t).data = [] := by
            show t.data.map Char.toLower = []
            rw [htd]
            rfl
          rw [h1] at h0
          have h2 : (pyLower ref).data = [] := by
            simpa [pyInAux, List.isEmpty_iff] using h0
          have h3 : ref.data.map Char.toLower = [] := h2
          exact List.map_eq_nil_iff.mp h3
        have ht0 : t = "" := by
          cases t with
          | mk data =>
            cases htd
            rfl
        have hr0 : ref = "" := by
          cases ref with
          | mk data =>
            cases href
            rfl
        refine hne ⟨hr0, r, by simp, ?_⟩
        rw [EmptyTextItem, hrt, ht0]
      · rw [if_neg hlen]
        by_cases hgt : (ref.length : Rat) / (t.length : Rat) > best
        · rw [if_pos hgt]
          exact ih _ _ _ hwf' hne'
        · rw [if_neg hgt]
          exact ih _ _ _ hwf' hne'
    · rw [if_neg hin]
      exact ih _ _ _ hwf' hne'

/-- The whole resolution step finishes without raising under the same
conditions. -/
theorem resolveReminderReference_total (reminders : List PyVal) (ref : String)
    (hwf : ∀ r ∈ reminders, WellFormedItem r)
    (hne : ¬(ref = "" ∧ ∃ r ∈ reminders, EmptyTextItem r)) :
    ∃ o, resolveReminderReference reminders ref = .ok o := by
  cases hp : pyParseInt ref with
  | some n =>
    simp only [resolveReminderReference, hp]
    by_cases hc : ((n - 1 : Int) < 0 ∨ (n - 1 : Int) ≥ (reminders.length : Int))
    · exact ⟨none, by rw [if_pos hc]⟩
    · exact ⟨some (n - 1).toNat, by rw [if_neg hc]⟩
  | none =>
    simp only [resolveReminderReference, hp]
    by_cases h1 : pyLower ref = "first"
    · exact ⟨some 0, by rw [if_pos h1]⟩
    · rw [if_neg h1]
      by_cases h2 : pyLower ref = "last"
      · exact ⟨some (reminders.length - 1), by rw [if_pos h2]⟩
      · rw [if_neg h2]
        by_cases h3 : pyLower ref = "second" ∧ reminders.length > 1
        · exact ⟨some 1, by rw [if_pos h3]⟩
        · rw [if_neg h3]
          by_cases h4 : pyLower ref = "third" ∧ reminders.length > 2
          · exact ⟨some 2, by rw [if_pos h4]⟩
          · rw [if_neg h4]
            exact findByContentAux_total ref reminders 0 0 none hwf hne

/-- CLAIM C10, counterexample: with a single legacy reminder whose text
is the empty string and the empty identifier, both tools reach the score
computation with a zero-length text and raise `ZeroDivisionError`
instead of returning a result dict. -/
theorem c10_resolution_totality_counterexample :
    updateReminderRun [.vStr ("")] ("") ("x") 0 ("d") = .error .zeroDivisionError ∧
    completeReminderRun [.vStr ("")] ("") 0 ("d") = .error .zeroDivisionError :=
  ⟨rfl, rfl⟩

/-- CLAIM C10, amended: on any reminders list of well-formed items
(legacy strings or dicts with a string text), `update_reminder` and
`complete_reminder` return a structured success or error result and do
not raise — except in the one case where the identifier is the empty
string and some item's text is empty, which divides by zero in the score
computation.  The empty list yields the error result, not an exception. -/
theorem c10_resolution_totality_amended :
    (∀ (reminders : List PyVal) (ref updatedText : String) (nowT : Rat) (dateStr : String),
      (∀ r ∈ reminders, WellFormedItem r) →
      ¬(ref = "" ∧ ∃ r ∈ reminders, EmptyTextItem r) →
      exceptOk (updateReminderRun reminders ref updatedText nowT dateStr) = true ∧
      exceptOk (completeReminderRun reminders ref nowT dateStr) = true) ∧
    updateReminderRun [] ("meeting") ("x") 0 ("d") = .ok (.emptyListError, []) ∧
    completeReminderRun [] ("meeting") 0 ("d") = .ok (.emptyListError, []) := by
  refine ⟨?_, rfl, rfl⟩
  intro reminders ref updatedText nowT dateStr hwf hne
  by_cases he : reminders.isEmpty = true
  · constructor <;> simp [updateReminderRun, completeReminderRun, he, exceptOk]
  · obtain ⟨o, ho⟩ := resolveReminderReference_total reminders ref hwf hne
    cases o with
    | none =>
      constructor <;> simp [updateReminderRun, completeReminderRun, he, ho, exceptOk]
    | some idx =>
      constructor <;> simp [updateReminderRun, completeReminderRun, he, ho, exceptOk]

/-- Witness for the amended C10 on the three-item list with identifier
`milk`. -/
theorem c10_resolution_totality_witness :
    exceptOk (updateReminderRun items3 ("milk") ("new text") 0 ("d")) = true ∧
    exceptOk (completeReminderRun items3 ("milk") 0 ("d")) = true :=
  c10_resolution_totality_amended.1 items3 ("milk") ("new text") 0 ("d")
    (by
      intro r hr
      simp [items3] at hr
      rcases hr with rfl | rfl | rfl <;> exact Or.inl ⟨_, rfl⟩)
    (by
      rintro ⟨h, -⟩
      exact absurd h (by decide))

end SimGuide
